import Mathlib

/-!
Shallow embedding of `src/monitoring/Profiler.js` (class `PerformanceProfiler`):
metric buffers, bottleneck detection, flame-graph construction, the capture
methods, `stop`, and profile cleanup.  Timestamps are milliseconds as integers
(`Date.now()`); durations and averages that arise from division are rationals.
-/

namespace Profiler

/-- A `process.memoryUsage()` reading, in bytes. -/
structure MemUsage where
  heapUsed : Int
  heapTotal : Int
  external : Int
  rss : Int
deriving DecidableEq, Inhabited

/-- A `process.cpuUsage()` reading. -/
structure CpuUsage where
  user : Int
  system : Int
deriving DecidableEq, Inhabited

/-- An entry of `metrics.memory`: `{timestamp: Date.now(), ...memUsage}`. -/
structure MemorySample where
  timestamp : Int
  heapUsed : Int
  heapTotal : Int
  external : Int
  rss : Int
deriving DecidableEq, Inhabited

/-- An entry of `metrics.cpu`: `{timestamp: Date.now(), ...cpuUsage}`. -/
structure CpuSample where
  timestamp : Int
  user : Int
  system : Int
deriving DecidableEq, Inhabited

/-- An entry of `metrics.gc` (see `_handleGCEntry`). -/
structure GCEvent where
  timestamp : Int
  duration : Rat
  kind : String
  flags : Int
deriving DecidableEq, Inhabited

/-- An entry of `metrics.operations.get(name)` (see `_handleMeasureEntry`). -/
structure OperationRecord where
  timestamp : Int
  duration : Rat
  startTime : Rat
deriving DecidableEq, Inhabited

/-- The `this.metrics` aggregate.  The `operations` `Map` is an association
list in insertion order, as JavaScript `Map` iteration is. -/
structure Metrics where
  cpu : List CpuSample
  memory : List MemorySample
  gc : List GCEvent
  operations : List (String × List OperationRecord)
deriving DecidableEq, Inhabited

/-- `Array.prototype.slice(-n)`: the last (at most) `n` elements. -/
def jsSliceLast (n : Nat) (l : List α) : List α :=
  l.drop (l.length - n)

/-- `_calculateGrowthRate(values)`: `(end - start) / values.length`, and `0`
when there are fewer than two values. -/
def calculateGrowthRate (values : List Int) : Rat :=
  if values.length < 2 then 0
  else ((values.getLastD 0 - values.headD 0 : Int) : Rat) / (values.length : Rat)

/-- The `data` payload attached to a bottleneck record. -/
inductive BData where
  | gcData (count : Nat) (threshold : Nat)
  | memData (growthRate : Rat)
  | opData (operation : String) (avgDuration : Rat) (count : Nat)
deriving DecidableEq

/-- A bottleneck record pushed by `detectBottlenecks` (the human-readable
`message` string is not modelled). -/
structure Bottleneck where
  btype : String
  severity : String
  data : BData
deriving DecidableEq

/-- The GC-frequency check of `detectBottlenecks`. -/
def gcBottlenecks (now : Int) (gcFrequency : Nat) (metrics : Metrics) :
    List Bottleneck :=
  let recentGCs := metrics.gc.filter (fun gc => gc.timestamp > now - 60000)
  if recentGCs.length > gcFrequency then
    [⟨"high_gc_frequency", "warning", .gcData recentGCs.length gcFrequency⟩]
  else []

/-- The memory-growth check of `detectBottlenecks`. -/
def memoryBottlenecks (metrics : Metrics) : List Bottleneck :=
  let recentMemory := jsSliceLast 10 metrics.memory
  if 2 ≤ recentMemory.length then
    let growthRate := calculateGrowthRate (recentMemory.map (·.heapUsed))
    if growthRate > 1024 * 1024 then
      [⟨"memory_leak", "critical", .memData growthRate⟩]
    else []
  else []

/-- The `recent` list of the slow-operation check: the operation's records
from the last 5 minutes. -/
def recentOps (now : Int) (ms : List OperationRecord) : List OperationRecord :=
  ms.filter (fun m => m.timestamp > now - 300000)

/-- The `avgDuration` of the slow-operation check.  For an empty `recent` list
the JavaScript average is `NaN` and `NaN > 1000` is false; here it is
`0 / 0 = 0` and the comparison is false as well. -/
def opAvgDuration (now : Int) (ms : List OperationRecord) : Rat :=
  ((recentOps now ms).map (·.duration)).sum / ((recentOps now ms).length : Rat)

/-- The slow-operation check of `detectBottlenecks`. -/
def slowOpBottlenecks (now : Int) (metrics : Metrics) : List Bottleneck :=
  metrics.operations.flatMap (fun p =>
    if opAvgDuration now p.2 > 1000 ∧ (recentOps now p.2).length > 5 then
      [⟨"slow_operation", "warning",
        .opData p.1 (opAvgDuration now p.2) (recentOps now p.2).length⟩]
    else [])

/-- `detectBottlenecks()`: the three checks, in the order the code pushes
their findings. -/
def detectBottlenecks (now : Int) (gcFrequency : Nat) (metrics : Metrics) :
    List Bottleneck :=
  gcBottlenecks now gcFrequency metrics ++ memoryBottlenecks metrics ++
    slowOpBottlenecks now metrics

/-- The sub-list of bottlenecks of one `type`. -/
def bottlenecksOfType (t : String) (bs : List Bottleneck) : List Bottleneck :=
  bs.filter (fun b => b.btype = t)

/-- The growth-rate formula of the memory-growth check, spelled as the spec
states it: `(last.heapUsed - first.heapUsed) / sampleCount` over the last 10
memory samples. -/
def claimedGrowthRate (memory : List MemorySample) : Rat :=
  let recent := jsSliceLast 10 memory
  (((recent.getLastD default).heapUsed - (recent.headD default).heapUsed : Int) : Rat) /
    (recent.length : Rat)

/-! Flame-graph construction (`_convertToFlameGraph` / `_processProfileNodes`). -/

/-- The `callFrame` of a raw profile node. -/
structure CallFrame where
  functionName : String
  url : String
  lineNumber : Int
  columnNumber : Int
deriving DecidableEq, Inhabited

/-- A raw CPU-profile node. -/
structure ProfileNode where
  id : Nat
  callFrame : CallFrame
deriving DecidableEq, Inhabited

/-- The per-node aggregate stored in `nodeMap` (`children` stays empty and is
not modelled). -/
structure NodeRec where
  id : Nat
  callFrame : CallFrame
  index : Nat
  selfTime : Int
  totalTime : Int
deriving DecidableEq

/-- A flat flame-graph node descriptor. -/
structure FlameNode where
  name : String
  value : Int
  url : String
  line : Int
  column : Int
deriving DecidableEq, Inhabited

/-- A raw captured CPU profile. -/
structure CPUProfile where
  startTime : Int
  endTime : Int
  nodes : List ProfileNode
  samples : List Nat
  timeDeltas : List Int
deriving DecidableEq, Inhabited

/-- The initial aggregate for a node: `{...node, index, selfTime: 0, totalTime: 0}`. -/
def initNodeRec (n : ProfileNode) (index : Nat) : NodeRec :=
  ⟨n.id, n.callFrame, index, 0, 0⟩

/-- `Map.prototype.set`: replace in place if the key exists, else append. -/
def mapSet : List (Nat × NodeRec) → Nat → NodeRec → List (Nat × NodeRec)
  | [], k, v => [(k, v)]
  | e :: rest, k, v => if e.1 = k then (k, v) :: rest else e :: mapSet rest k v

/-- The `nodes.forEach((node, index) => nodeMap.set(node.id, ...))` loop. -/
def buildNodeMapGo : List ProfileNode → List (Nat × NodeRec) → Nat →
    List (Nat × NodeRec)
  | [], m, _ => m
  | n :: rest, m, index => buildNodeMapGo rest (mapSet m n.id (initNodeRec n index)) (index + 1)

/-- Build `nodeMap` from the node list. -/
def buildNodeMap (nodes : List ProfileNode) : List (Nat × NodeRec) :=
  buildNodeMapGo nodes [] 0

/-- `timeDeltas[index] || 1`: `1` when the entry is `0` or absent. -/
def jsDelta (timeDeltas : List Int) (index : Nat) : Int :=
  match timeDeltas.get? index with
  | none => 1
  | some d => if d = 0 then 1 else d

/-- `node.selfTime += timeDelta; node.totalTime += timeDelta`. -/
def addTime (r : NodeRec) (d : Int) : NodeRec :=
  { r with selfTime := r.selfTime + d, totalTime := r.totalTime + d }

/-- `nodeMap.get(sample)` followed by the in-place `+=`s; no-op when the id is
absent. -/
def mapAddTime : List (Nat × NodeRec) → Nat → Int → List (Nat × NodeRec)
  | [], _, _ => []
  | e :: rest, k, d =>
    if e.1 = k then (e.1, addTime e.2 d) :: rest else e :: mapAddTime rest k d

/-- The `samples.forEach((sample, index) => ...)` timing loop. -/
def applyTimings (timeDeltas : List Int) :
    List (Nat × NodeRec) → List Nat → Nat → List (Nat × NodeRec)
  | m, [], _ => m
  | m, s :: rest, index =>
    applyTimings timeDeltas (mapAddTime m s (jsDelta timeDeltas index)) rest (index + 1)

/-- Projection of an aggregate into the flat descriptor. -/
def projectNode (r : NodeRec) : FlameNode :=
  { name := if r.callFrame.functionName = "" then "(anonymous)" else r.callFrame.functionName,
    value := r.totalTime,
    url := r.callFrame.url,
    line := r.callFrame.lineNumber,
    column := r.callFrame.columnNumber }

/-- `_processProfileNodes(nodes, samples, timeDeltas)`. -/
def processProfileNodes (nodes : List ProfileNode) (samples : List Nat)
    (timeDeltas : List Int) : List FlameNode :=
  (applyTimings timeDeltas (buildNodeMap nodes) samples 0).map (fun e => projectNode e.2)

/-- The flame-graph root produced by `_convertToFlameGraph`. -/
structure FlameGraph where
  name : String
  value : Int
  children : List FlameNode
deriving DecidableEq

/-- `_convertToFlameGraph(profile)`. -/
def convertToFlameGraph (p : CPUProfile) : FlameGraph :=
  ⟨"root", p.endTime - p.startTime, processProfileNodes p.nodes p.samples p.timeDeltas⟩

/-- The per-node total expected by the spec: the sum of the time deltas at the
indices whose sample references the node. -/
def matchingDeltaSum (id : Nat) (samples : List Nat) (timeDeltas : List Int) : Int :=
  (((samples.zip timeDeltas).filter (fun p => p.1 = id)).map Prod.snd).sum

/-- What the timing loop adds to node `id` over the given samples starting at
`index`, with the code's `|| 1` default for zero or absent deltas. -/
def totalForJs (id : Nat) (timeDeltas : List Int) : List Nat → Nat → Int
  | [], _ => 0
  | s :: rest, index =>
    (if s = id then jsDelta timeDeltas index else 0) + totalForJs id timeDeltas rest (index + 1)

/-! Profiler state, capture methods, `stop`, metric collection, cleanup. -/

/-- A `this.profiles` entry (`CapturedProfile`); fields that only some profile
kinds carry are options. -/
structure CapturedProfile where
  ptype : String
  filename : String
  filepath : String
  timestamp : Int
  duration : Option Nat
  size : Option Int
  samplesCount : Option Nat
deriving DecidableEq, Inhabited

/-- The mutable fields of `PerformanceProfiler` that the modelled methods
touch.  `session` is the optional instrumentation connection; `events` is the
log of event names emitted so far. -/
structure ProfilerState where
  isRunning : Bool
  session : Option Unit
  metrics : Metrics
  profiles : List (String × CapturedProfile)
  events : List String
  outputDir : String
deriving DecidableEq, Inhabited

/-- `stop()`: no-op when not running; else clear the running flag, disconnect
and drop the session, and emit `stopped`. -/
def stop (st : ProfilerState) : ProfilerState :=
  if !st.isRunning then st
  else { st with
          isRunning := false,
          session := none,
          events := st.events ++ ["stopped"] }

/-- `_handleGCEntry(entry)`: append the event, evict entries older than one
hour, and emit `high-gc-frequency` when the 60-second window exceeds the
threshold.  Returns the new metrics and the emitted event names. -/
def handleGCEntry (now : Int) (gcFrequency : Nat) (duration : Rat)
    (kind : String) (flags : Int) (metrics : Metrics) : Metrics × List String :=
  let gc1 := metrics.gc ++ [⟨now, duration, kind, flags⟩]
  let gc2 := gc1.filter (fun gc => gc.timestamp > now - 3600000)
  let recentGCs := gc2.filter (fun gc => gc.timestamp > now - 60000)
  let events := if recentGCs.length > gcFrequency then ["high-gc-frequency"] else []
  ({ metrics with gc := gc2 }, events)

/-- `_collectSystemMetrics()`: push one memory and one CPU sample, evict
entries older than one hour, and emit `high-memory-usage` when `heapUsed`
exceeds the configured threshold. -/
def collectSystemMetrics (now : Int) (memoryUsageThreshold : Int)
    (memUsage : MemUsage) (cpuUsage : CpuUsage) (metrics : Metrics) :
    Metrics × List String :=
  let memory1 := metrics.memory ++
    [⟨now, memUsage.heapUsed, memUsage.heapTotal, memUsage.external, memUsage.rss⟩]
  let cpu1 := metrics.cpu ++ [⟨now, cpuUsage.user, cpuUsage.system⟩]
  let memory2 := memory1.filter (fun m => m.timestamp > now - 3600000)
  let cpu2 := cpu1.filter (fun c => c.timestamp > now - 3600000)
  let events :=
    if memUsage.heapUsed > memoryUsageThreshold then ["high-memory-usage"] else []
  ({ metrics with memory := memory2, cpu := cpu2 }, events)

/-- `profileCPU(duration)`: fails when no session is connected; otherwise
serializes the captured raw profile and registers a CapturedProfile.  The
capture subsystem is abstracted by the profile payload size. -/
def profileCPU (st : ProfilerState) (now : Int) (duration : Nat)
    (profileSize : Int) : Except String ProfilerState :=
  match st.session with
  | none => .error "Profiler session not active"
  | some _ =>
    let profileId := "cpu_" ++ toString now
    let filename := profileId ++ ".cpuprofile"
    let filepath := st.outputDir ++ "/" ++ filename
    .ok { st with
            profiles := st.profiles ++
              [(profileId,
                ⟨"cpu", filename, filepath, now, some duration, some profileSize, none⟩)],
            events := st.events ++ ["profile-complete"] }

/-- `takeHeapSnapshot()`: fails when no session is connected; otherwise
streams the chunks, accumulating total byte size, and registers a
CapturedProfile. -/
def takeHeapSnapshot (st : ProfilerState) (now : Int) (chunkSizes : List Int) :
    Except String ProfilerState :=
  match st.session with
  | none => .error "Profiler session not active"
  | some _ =>
    let snapshotId := "heap_" ++ toString now
    let filename := snapshotId ++ ".heapsnapshot"
    let filepath := st.outputDir ++ "/" ++ filename
    .ok { st with
            profiles := st.profiles ++
              [(snapshotId,
                ⟨"heap", filename, filepath, now, none, some chunkSizes.sum, none⟩)],
            events := st.events ++ ["profile-complete"] }

/-- The `setInterval` sampling loop of `profileMemory`: one sample is pushed,
then `sampleCount` (the argument plus one) is compared against
`totalSamples = duration / 100` — real division, so the loop stops as soon as
`100 * sampleCount ≥ duration`.  Returns the number of samples taken. -/
def memSampleLoop (duration : Nat) (sampleCount : Nat) : Nat :=
  if duration ≤ 100 * (sampleCount + 1) then sampleCount + 1
  else memSampleLoop duration (sampleCount + 1)
termination_by duration - sampleCount
decreasing_by omega

/-- Min/max/average of one memory field. -/
structure FieldStats where
  min : Int
  max : Int
  avg : Rat
deriving DecidableEq

/-- `Math.min(...l)` over a non-empty list (`0` is never reached: callers
guard against the empty list). -/
def jsMinList : List Int → Int
  | [] => 0
  | x :: xs => xs.foldl Min.min x

/-- `Math.max(...l)` over a non-empty list. -/
def jsMaxList : List Int → Int
  | [] => 0
  | x :: xs => xs.foldl Max.max x

/-- Statistics of one field: min, max, average. -/
def fieldStats (l : List Int) : FieldStats :=
  ⟨jsMinList l, jsMaxList l, (l.sum : Rat) / (l.length : Rat)⟩

/-- The summary produced by `_analyzeMemoryProfile`. -/
structure MemorySummary where
  heapUsed : FieldStats
  heapTotal : FieldStats
  external : FieldStats
  growthRate : Rat
deriving DecidableEq

/-- `_analyzeMemoryProfile(samples)`: `none` models the empty `{}` returned
for an empty sample list. -/
def analyzeMemoryProfile (samples : List MemorySample) : Option MemorySummary :=
  match samples with
  | [] => none
  | _ =>
    some ⟨fieldStats (samples.map (·.heapUsed)),
          fieldStats (samples.map (·.heapTotal)),
          fieldStats (samples.map (·.external)),
          calculateGrowthRate (samples.map (·.heapUsed))⟩

/-- The artifact written by `profileMemory`. -/
structure MemoryProfileData where
  profileId : String
  duration : Nat
  samples : List MemorySample
  summary : Option MemorySummary
deriving DecidableEq

/-- `profileMemory(duration)`: no session check; take `memSampleLoop duration 0`
samples (the sampling environment is abstracted by `sampler`), write them with
their summary, and register a CapturedProfile. -/
def profileMemory (st : ProfilerState) (now : Int) (duration : Nat)
    (sampler : Nat → MemorySample) : ProfilerState × MemoryProfileData :=
  let profileId := "memory_" ++ toString now
  let samples := (List.range (memSampleLoop duration 0)).map sampler
  let data : MemoryProfileData :=
    ⟨profileId, duration, samples, analyzeMemoryProfile samples⟩
  let filename := profileId ++ ".json"
  let filepath := st.outputDir ++ "/" ++ filename
  ({ st with
      profiles := st.profiles ++
        [(profileId,
          ⟨"memory", filename, filepath, now, some duration, none, some samples.length⟩)] },
   data)

/-- One iteration of the `cleanupProfiles` loop over the accumulator
`(toDelete, error log)`: an expired profile's id is pushed onto `toDelete`
before the deletion is attempted; a failed `fs.unlink` (modelled by
`unlinkOk`) only logs the filename. -/
def cleanupStep (cutoff : Int) (unlinkOk : String → Bool)
    (acc : List String × List String) (e : String × CapturedProfile) :
    List String × List String :=
  if e.2.timestamp < cutoff then
    (acc.1 ++ [e.1],
     if unlinkOk e.2.filepath then acc.2 else acc.2 ++ [e.2.filename])
  else acc

/-- `cleanupProfiles(maxAge)`: walk the mapping accumulating `toDelete` and
the failure log, then remove every id in `toDelete` from the mapping.
Returns the remaining mapping and the failure log. -/
def cleanupProfiles (now maxAge : Int) (unlinkOk : String → Bool)
    (profiles : List (String × CapturedProfile)) :
    List (String × CapturedProfile) × List String :=
  let cutoff := now - maxAge
  let acc := profiles.foldl (cleanupStep cutoff unlinkOk) ([], [])
  (profiles.filter (fun e => ¬ acc.1.contains e.1), acc.2)

/-! Helper lemmas about the three detection parts. -/

theorem btype_of_mem_gcBottlenecks {b : Bottleneck} {now : Int} {thr : Nat}
    {metrics : Metrics} (h : b ∈ gcBottlenecks now thr metrics) :
    b.btype = "high_gc_frequency" := by
  unfold gcBottlenecks at h
  dsimp only at h
  split at h
  · simp only [List.mem_singleton] at h
    subst h; rfl
  · simp at h

theorem btype_of_mem_memoryBottlenecks {b : Bottleneck} {metrics : Metrics}
    (h : b ∈ memoryBottlenecks metrics) : b.btype = "memory_leak" := by
  unfold memoryBottlenecks at h
  dsimp only at h
  split at h
  · split at h
    · simp only [List.mem_singleton] at h
      subst h; rfl
    · simp at h
  · simp at h

theorem btype_of_mem_slowOpBottlenecks {b : Bottleneck} {now : Int}
    {metrics : Metrics} (h : b ∈ slowOpBottlenecks now metrics) :
    b.btype = "slow_operation" := by
  unfold slowOpBottlenecks at h
  rw [List.mem_flatMap] at h
  obtain ⟨p, _, hb⟩ := h
  split at hb
  · simp only [List.mem_singleton] at hb
    subst hb; rfl
  · simp at hb

theorem bottlenecksOfType_eq_nil {t : String} {bs : List Bottleneck}
    (h : ∀ b ∈ bs, b.btype ≠ t) : bottlenecksOfType t bs = [] := by
  unfold bottlenecksOfType
  rw [List.filter_eq_nil_iff]
  intro b hb
  simpa using h b hb

theorem bottlenecksOfType_append (t : String) (l₁ l₂ : List Bottleneck) :
    bottlenecksOfType t (l₁ ++ l₂) =
      bottlenecksOfType t l₁ ++ bottlenecksOfType t l₂ := by
  unfold bottlenecksOfType
  exact List.filter_append l₁ l₂

theorem gcBottlenecks_eq (now : Int) (thr : Nat) (metrics : Metrics) :
    gcBottlenecks now thr metrics =
      if (metrics.gc.filter (fun gc => gc.timestamp > now - 60000)).length > thr then
        [⟨"high_gc_frequency", "warning",
          .gcData (metrics.gc.filter (fun gc => gc.timestamp > now - 60000)).length thr⟩]
      else [] := rfl

theorem memoryBottlenecks_eq (metrics : Metrics) :
    memoryBottlenecks metrics =
      if 2 ≤ (jsSliceLast 10 metrics.memory).length then
        (if calculateGrowthRate ((jsSliceLast 10 metrics.memory).map (·.heapUsed)) >
            1024 * 1024 then
          [⟨"memory_leak", "critical",
            .memData (calculateGrowthRate ((jsSliceLast 10 metrics.memory).map (·.heapUsed)))⟩]
        else [])
      else [] := rfl

theorem headD_map (f : α → β) (l : List α) (d : α) :
    (l.map f).headD (f d) = f (l.headD d) := by
  cases l <;> rfl

theorem getLastD_map (f : α → β) (l : List α) (d : α) :
    (l.map f).getLastD (f d) = f (l.getLastD d) := by
  induction l generalizing d with
  | nil => rfl
  | cons a t ih => simp only [List.map_cons, List.getLastD_cons, ih]

theorem calculateGrowthRate_heapUsed (l : List MemorySample) (h : 2 ≤ l.length) :
    calculateGrowthRate (l.map (·.heapUsed)) =
      (((l.getLastD default).heapUsed - (l.headD default).heapUsed : Int) : Rat) /
        (l.length : Rat) := by
  unfold calculateGrowthRate
  rw [List.length_map, if_neg (by omega)]
  have hd : (0 : Int) = (default : MemorySample).heapUsed := rfl
  rw [hd, headD_map (·.heapUsed) l default, getLastD_map (·.heapUsed) l default]

/-- C4: the memory-growth check takes the last 10 memory samples (fewer than
2 yields no verdict), computes `(last.heapUsed - first.heapUsed) / sampleCount`
over them, and flags a `memory_leak` bottleneck of severity `critical` exactly
when that rate exceeds 1 MiB (1048576 bytes) per sample. -/
theorem memory_growth_detection (now : Int) (thr : Nat) (metrics : Metrics) :
    ((jsSliceLast 10 metrics.memory).length < 2 →
      bottlenecksOfType "memory_leak" (detectBottlenecks now thr metrics) = []) ∧
    (2 ≤ (jsSliceLast 10 metrics.memory).length →
      bottlenecksOfType "memory_leak" (detectBottlenecks now thr metrics) =
        if 1048576 < claimedGrowthRate metrics.memory then
          [⟨"memory_leak", "critical", .memData (claimedGrowthRate metrics.memory)⟩]
        else []) := by
  have hgc : bottlenecksOfType "memory_leak" (gcBottlenecks now thr metrics) = [] :=
    bottlenecksOfType_eq_nil
      (fun b hb => by rw [btype_of_mem_gcBottlenecks hb]; decide)
  have hop : bottlenecksOfType "memory_leak" (slowOpBottlenecks now metrics) = [] :=
    bottlenecksOfType_eq_nil
      (fun b hb => by rw [btype_of_mem_slowOpBottlenecks hb]; decide)
  constructor
  · intro hlen
    rw [detectBottlenecks, bottlenecksOfType_append, bottlenecksOfType_append, hgc, hop,
      memoryBottlenecks_eq, if_neg (by omega)]
    simp [bottlenecksOfType]
  · intro hlen
    rw [detectBottlenecks, bottlenecksOfType_append, bottlenecksOfType_append, hgc, hop,
      memoryBottlenecks_eq, if_pos hlen,
      calculateGrowthRate_heapUsed _ hlen]
    have hrate : claimedGrowthRate metrics.memory =
        ((((jsSliceLast 10 metrics.memory).getLastD default).heapUsed -
          ((jsSliceLast 10 metrics.memory).headD default).heapUsed : Int) : Rat) /
          ((jsSliceLast 10 metrics.memory).length : Rat) := rfl
    rw [← hrate, (by norm_num : (1024 * 1024 : Rat) = 1048576)]
    by_cases hc : (1048576 : Rat) < claimedGrowthRate metrics.memory
    · rw [if_pos hc]
      simp [bottlenecksOfType]
    · rw [if_neg hc]
      simp [bottlenecksOfType]

/-- Witness for `memory_growth_detection`: three samples whose `heapUsed`
rises by 3 MiB each give a growth rate of 2 MiB per sample, which is flagged. -/
theorem memory_growth_detection_witness :
    bottlenecksOfType "memory_leak"
      (detectBottlenecks 0 10
        ⟨[], [⟨0, 0, 0, 0, 0⟩, ⟨1, 3145728, 0, 0, 0⟩, ⟨2, 6291456, 0, 0, 0⟩], [], []⟩) =
      [⟨"memory_leak", "critical", .memData 2097152⟩] := by
  have h := (memory_growth_detection 0 10
    ⟨[], [⟨0, 0, 0, 0, 0⟩, ⟨1, 3145728, 0, 0, 0⟩, ⟨2, 6291456, 0, 0, 0⟩], [], []⟩).2
    (by decide)
  rw [h]
  norm_num [claimedGrowthRate, jsSliceLast]

/-- C5: with all GC events inside the 60-second window, `threshold + 1` of
them produce exactly one `high_gc_frequency` bottleneck (severity `warning`),
and exactly `threshold` of them produce none. -/
theorem gc_frequency_detection (now : Int) (thr : Nat) (metrics : Metrics)
    (hin : ∀ gc ∈ metrics.gc, gc.timestamp > now - 60000) :
    (metrics.gc.length = thr + 1 →
      bottlenecksOfType "high_gc_frequency" (detectBottlenecks now thr metrics)
        = [⟨"high_gc_frequency", "warning", .gcData (thr + 1) thr⟩]) ∧
    (metrics.gc.length = thr →
      bottlenecksOfType "high_gc_frequency" (detectBottlenecks now thr metrics) = []) := by
  have hfilter : metrics.gc.filter (fun gc => gc.timestamp > now - 60000) = metrics.gc := by
    rw [List.filter_eq_self]
    intro a ha
    simpa using hin a ha
  have hmem : bottlenecksOfType "high_gc_frequency" (memoryBottlenecks metrics) = [] :=
    bottlenecksOfType_eq_nil
      (fun b hb => by rw [btype_of_mem_memoryBottlenecks hb]; decide)
  have hop : bottlenecksOfType "high_gc_frequency" (slowOpBottlenecks now metrics) = [] :=
    bottlenecksOfType_eq_nil
      (fun b hb => by rw [btype_of_mem_slowOpBottlenecks hb]; decide)
  constructor
  · intro hlen
    rw [detectBottlenecks, bottlenecksOfType_append, bottlenecksOfType_append, hmem, hop,
      gcBottlenecks_eq, hfilter, hlen, if_pos (by omega)]
    simp [bottlenecksOfType]
  · intro hlen
    rw [detectBottlenecks, bottlenecksOfType_append, bottlenecksOfType_append, hmem, hop,
      gcBottlenecks_eq, hfilter, hlen, if_neg (by omega)]
    simp [bottlenecksOfType]

/-- Witness for `gc_frequency_detection`: with threshold 2, three in-window GC
events are flagged once and two are not. -/
theorem gc_frequency_detection_witness :
    bottlenecksOfType "high_gc_frequency"
        (detectBottlenecks 0 2 ⟨[], [], [⟨0, 1, "minor", 0⟩, ⟨0, 1, "minor", 0⟩,
          ⟨0, 1, "major", 0⟩], []⟩)
      = [⟨"high_gc_frequency", "warning", .gcData 3 2⟩] ∧
    bottlenecksOfType "high_gc_frequency"
        (detectBottlenecks 0 2 ⟨[], [], [⟨0, 1, "minor", 0⟩, ⟨0, 1, "minor", 0⟩], []⟩)
      = [] := by
  constructor
  · exact (gc_frequency_detection 0 2 _ (by decide)).1 (by decide)
  · exact (gc_frequency_detection 0 2 _ (by decide)).2 (by decide)

theorem mem_slowOpBottlenecks_iff (now : Int) (metrics : Metrics) (b : Bottleneck) :
    b ∈ slowOpBottlenecks now metrics ↔
      ∃ p ∈ metrics.operations,
        (opAvgDuration now p.2 > 1000 ∧ (recentOps now p.2).length > 5) ∧
        b = ⟨"slow_operation", "warning",
          .opData p.1 (opAvgDuration now p.2) (recentOps now p.2).length⟩ := by
  unfold slowOpBottlenecks
  rw [List.mem_flatMap]
  constructor
  · rintro ⟨p, hp, hb⟩
    split at hb
    · simp only [List.mem_singleton] at hb
      exact ⟨p, hp, ‹_›, hb⟩
    · simp at hb
  · rintro ⟨p, hp, hcond, hb⟩
    refine ⟨p, hp, ?_⟩
    rw [if_pos hcond]
    simp [hb]

/-- C6: for each operation in the mapping, the slow-operation check filters
its records to the last 5 minutes and flags a `slow_operation` bottleneck of
severity `warning` carrying the average duration and the count exactly when
there are strictly more than 5 recent records and their average duration
exceeds 1000 ms; an operation with at most 5 recent records is never flagged,
whatever its durations. -/
theorem slow_operation_detection (now : Int) (thr : Nat) (metrics : Metrics)
    (hkeys : (metrics.operations.map Prod.fst).Nodup) :
    (∀ op ms, (op, ms) ∈ metrics.operations →
      (5 < (recentOps now ms).length ∧ 1000 < opAvgDuration now ms →
        (⟨"slow_operation", "warning",
          .opData op (opAvgDuration now ms) (recentOps now ms).length⟩ : Bottleneck)
          ∈ detectBottlenecks now thr metrics) ∧
      ((recentOps now ms).length ≤ 5 →
        ∀ a c, (⟨"slow_operation", "warning", .opData op a c⟩ : Bottleneck)
          ∉ detectBottlenecks now thr metrics)) ∧
    (∀ b ∈ detectBottlenecks now thr metrics, b.btype = "slow_operation" →
      ∃ op ms, (op, ms) ∈ metrics.operations ∧
        5 < (recentOps now ms).length ∧ 1000 < opAvgDuration now ms ∧
        b = ⟨"slow_operation", "warning",
          .opData op (opAvgDuration now ms) (recentOps now ms).length⟩) := by
  have hsplit : ∀ b : Bottleneck, b ∈ detectBottlenecks now thr metrics ↔
      b ∈ gcBottlenecks now thr metrics ∨ b ∈ memoryBottlenecks metrics ∨
        b ∈ slowOpBottlenecks now metrics := by
    intro b
    unfold detectBottlenecks
    simp [List.mem_append]
  constructor
  · intro op ms hmem
    constructor
    · intro hcond
      rw [hsplit]
      right; right
      rw [mem_slowOpBottlenecks_iff]
      exact ⟨(op, ms), hmem, ⟨hcond.2, hcond.1⟩, rfl⟩
    · intro hle a c hin
      rw [hsplit] at hin
      rcases hin with h | h | h
      · have := btype_of_mem_gcBottlenecks h
        simp at this
      · have := btype_of_mem_memoryBottlenecks h
        simp at this
      · rw [mem_slowOpBottlenecks_iff] at h
        obtain ⟨p, hp, hcond, heq⟩ := h
        have hop : p.1 = op := by
          have := congrArg Bottleneck.data heq
          simp only [BData.opData.injEq] at this
          exact this.1.symm
        have hpeq : p = (op, ms) := by
          have := List.inj_on_of_nodup_map hkeys hp hmem (by simpa using hop)
          exact this
        rw [hpeq] at hcond
        have h5 : 5 < (recentOps now ms).length := by simpa using hcond.2
        omega
  · intro b hb hbtype
    rw [hsplit] at hb
    rcases hb with h | h | h
    · rw [btype_of_mem_gcBottlenecks h] at hbtype
      simp at hbtype
    · rw [btype_of_mem_memoryBottlenecks h] at hbtype
      simp at hbtype
    · rw [mem_slowOpBottlenecks_iff] at h
      obtain ⟨p, hp, hcond, heq⟩ := h
      exact ⟨p.1, p.2, hp, hcond.2, hcond.1, heq⟩

/-- Witness for `slow_operation_detection`: six recent records of 1500 ms
each are flagged with average 1500 and count 6. -/
theorem slow_operation_detection_witness :
    (⟨"slow_operation", "warning", .opData "load" 1500 6⟩ : Bottleneck) ∈
      detectBottlenecks 0 10
        ⟨[], [], [], [("load", List.replicate 6 ⟨0, 1500, 0⟩)]⟩ := by
  have hlen : (recentOps 0 (List.replicate 6 ⟨0, 1500, 0⟩)).length = 6 := by decide
  have havg : opAvgDuration 0 (List.replicate 6 ⟨0, 1500, 0⟩) = 1500 := by
    unfold opAvgDuration
    rw [show recentOps 0 (List.replicate 6 ⟨0, 1500, 0⟩) =
      List.replicate 6 ⟨0, 1500, 0⟩ from by decide]
    norm_num [List.map_replicate, List.sum_replicate]
  have h := ((slow_operation_detection 0 10
    ⟨[], [], [], [("load", List.replicate 6 ⟨0, 1500, 0⟩)]⟩ (by decide)).1
    "load" (List.replicate 6 ⟨0, 1500, 0⟩) (by simp)).1
    (by rw [hlen, havg]; norm_num)
  rw [hlen, havg] at h
  exact h

/-! Flame-graph lemmas. -/

theorem mapSet_of_not_mem {m : List (Nat × NodeRec)} {k : Nat} (v : NodeRec)
    (h : k ∉ m.map Prod.fst) : mapSet m k v = m ++ [(k, v)] := by
  induction m with
  | nil => rfl
  | cons e rest ih =>
    simp only [List.map_cons, List.mem_cons] at h
    push_neg at h
    rw [mapSet, if_neg (fun he => h.1 he.symm), ih h.2]
    rfl

theorem buildNodeMapGo_eq : ∀ (nodes : List ProfileNode)
    (m : List (Nat × NodeRec)) (i : Nat),
    (nodes.map ProfileNode.id).Nodup →
    (∀ n ∈ nodes, n.id ∉ m.map Prod.fst) →
    buildNodeMapGo nodes m i =
      m ++ (nodes.enumFrom i).map (fun p => (p.2.id, initNodeRec p.2 p.1)) := by
  intro nodes
  induction nodes with
  | nil => intro m i _ _; simp [buildNodeMapGo]
  | cons n rest ih =>
    intro m i h1 h2
    rw [buildNodeMapGo, mapSet_of_not_mem _ (h2 n (List.mem_cons_self n rest))]
    simp only [List.map_cons, List.nodup_cons] at h1
    have hrest : ∀ n' ∈ rest, n'.id ∉ (m ++ [(n.id, initNodeRec n i)]).map Prod.fst := by
      intro n' hn'
      simp only [List.map_append, List.mem_append, List.map_cons, List.map_nil,
        List.mem_singleton]
      rintro (hin | hid)
      · exact h2 n' (List.mem_cons_of_mem n hn') hin
      · exact h1.1 (hid ▸ List.mem_map_of_mem ProfileNode.id hn')
    rw [ih (m ++ [(n.id, initNodeRec n i)]) (i + 1) h1.2 hrest]
    simp [List.enumFrom]

theorem buildNodeMap_eq (nodes : List ProfileNode)
    (h : (nodes.map ProfileNode.id).Nodup) :
    buildNodeMap nodes =
      nodes.enum.map (fun p => (p.2.id, initNodeRec p.2 p.1)) := by
  unfold buildNodeMap
  rw [buildNodeMapGo_eq nodes [] 0 h (by simp)]
  rfl

theorem buildNodeMap_keys (nodes : List ProfileNode)
    (h : (nodes.map ProfileNode.id).Nodup) :
    (buildNodeMap nodes).map Prod.fst = nodes.map ProfileNode.id := by
  rw [buildNodeMap_eq nodes h, List.map_map]
  have : (Prod.fst ∘ fun p : Nat × ProfileNode => (p.2.id, initNodeRec p.2 p.1)) =
      (ProfileNode.id ∘ Prod.snd) := rfl
  rw [this, ← List.map_map, List.enum_map_snd]

theorem addTime_zero (r : NodeRec) : addTime r 0 = r := by
  simp [addTime]

theorem addTime_addTime (r : NodeRec) (a b : Int) :
    addTime (addTime r a) b = addTime r (a + b) := by
  simp [addTime, add_assoc]

theorem mapAddTime_eq_map {m : List (Nat × NodeRec)} (k : Nat) (d : Int)
    (h : (m.map Prod.fst).Nodup) :
    mapAddTime m k d = m.map (fun e => if e.1 = k then (e.1, addTime e.2 d) else e) := by
  induction m with
  | nil => rfl
  | cons e rest ih =>
    simp only [List.map_cons, List.nodup_cons] at h
    by_cases he : e.1 = k
    · rw [mapAddTime, if_pos he, List.map_cons, if_pos he]
      have hmap : rest.map (fun e' => if e'.1 = k then (e'.1, addTime e'.2 d) else e') =
          rest.map id := by
        apply List.map_congr_left
        intro e' he'
        have hne : ¬ e'.1 = k := by
          intro hk
          have hm : e.1 ∈ List.map Prod.fst rest := by
            rw [he, ← hk]
            exact List.mem_map_of_mem Prod.fst he'
          exact h.1 hm
        rw [if_neg hne]
        rfl
      rw [hmap, List.map_id, he]
    · rw [mapAddTime, if_neg he, List.map_cons, if_neg he, ih h.2]

theorem map_fst_mapped (m : List (Nat × NodeRec)) (k : Nat) (d : Int) :
    ((m.map (fun e => if e.1 = k then (e.1, addTime e.2 d) else e)).map Prod.fst) =
      m.map Prod.fst := by
  rw [List.map_map]
  apply List.map_congr_left
  intro e _
  by_cases he : e.1 = k <;> simp [he]

theorem applyTimings_eq (tds : List Int) :
    ∀ (samples : List Nat) (m : List (Nat × NodeRec)) (i : Nat),
    (m.map Prod.fst).Nodup →
    applyTimings tds m samples i =
      m.map (fun e => (e.1, addTime e.2 (totalForJs e.1 tds samples i))) := by
  intro samples
  induction samples with
  | nil =>
    intro m i _
    simp [applyTimings, totalForJs, addTime_zero]
  | cons s rest ih =>
    intro m i h
    rw [applyTimings, mapAddTime_eq_map s (jsDelta tds i) h]
    rw [ih _ (i + 1) (by rw [map_fst_mapped]; exact h)]
    rw [List.map_map]
    apply List.map_congr_left
    intro e _
    simp only [Function.comp_apply]
    by_cases he : e.1 = s
    · rw [if_pos he]
      simp only [totalForJs, addTime_addTime]
      rw [if_pos he.symm]
    · rw [if_neg he]
      simp only [totalForJs]
      rw [if_neg (fun hs => he hs.symm), zero_add]

theorem processProfileNodes_values (nodes : List ProfileNode) (samples : List Nat)
    (tds : List Int) (hids : (nodes.map ProfileNode.id).Nodup) :
    (processProfileNodes nodes samples tds).map FlameNode.value =
      nodes.map (fun n => totalForJs n.id tds samples 0) := by
  unfold processProfileNodes
  rw [applyTimings_eq tds samples (buildNodeMap nodes) 0
      (by rw [buildNodeMap_keys nodes hids]; exact hids)]
  rw [buildNodeMap_eq nodes hids]
  simp only [List.map_map]
  have hfun : (FlameNode.value ∘ (fun e : Nat × NodeRec => projectNode e.2) ∘
      (fun e : Nat × NodeRec => (e.1, addTime e.2 (totalForJs e.1 tds samples 0))) ∘
      (fun p : Nat × ProfileNode => (p.2.id, initNodeRec p.2 p.1))) =
      ((fun n : ProfileNode => totalForJs n.id tds samples 0) ∘ Prod.snd) := by
    funext p
    simp [projectNode, addTime, initNodeRec]
  rw [hfun, ← List.map_map, List.enum_map_snd]

theorem applyTimings_selfTimes (nodes : List ProfileNode) (samples : List Nat)
    (tds : List Int) (hids : (nodes.map ProfileNode.id).Nodup) :
    (applyTimings tds (buildNodeMap nodes) samples 0).map (fun e => e.2.selfTime) =
      nodes.map (fun n => totalForJs n.id tds samples 0) := by
  rw [applyTimings_eq tds samples (buildNodeMap nodes) 0
      (by rw [buildNodeMap_keys nodes hids]; exact hids)]
  rw [buildNodeMap_eq nodes hids]
  simp only [List.map_map]
  have hfun : ((fun e : Nat × NodeRec => e.2.selfTime) ∘
      (fun e : Nat × NodeRec => (e.1, addTime e.2 (totalForJs e.1 tds samples 0))) ∘
      (fun p : Nat × ProfileNode => (p.2.id, initNodeRec p.2 p.1))) =
      ((fun n : ProfileNode => totalForJs n.id tds samples 0) ∘ Prod.snd) := by
    funext p
    simp [addTime, initNodeRec]
  rw [hfun, ← List.map_map, List.enum_map_snd]

theorem jsDelta_of_nonzero (tds : List Int) (i : Nat) (hi : i < tds.length)
    (h : ∀ d ∈ tds, d ≠ 0) : jsDelta tds i = tds.get ⟨i, hi⟩ := by
  unfold jsDelta
  rw [List.get?_eq_get hi]
  exact if_neg (h _ (List.get_mem tds i hi))

theorem matchingDeltaSum_cons (id s : Nat) (rest : List Nat) (d : Int)
    (ds : List Int) :
    matchingDeltaSum id (s :: rest) (d :: ds) =
      (if s = id then d else 0) + matchingDeltaSum id rest ds := by
  unfold matchingDeltaSum
  rw [List.zip_cons_cons, List.filter_cons]
  by_cases hs : s = id
  · simp [hs]
  · simp [hs]

theorem totalForJs_eq_matchingDeltaSum (id : Nat) :
    ∀ (samples : List Nat) (tds : List Int) (i : Nat),
    (∀ d ∈ tds, d ≠ 0) → i + samples.length ≤ tds.length →
    totalForJs id tds samples i = matchingDeltaSum id samples (tds.drop i) := by
  intro samples
  induction samples with
  | nil =>
    intro tds i _ _
    simp [totalForJs, matchingDeltaSum]
  | cons s rest ih =>
    intro tds i hnz hlen
    have hi : i < tds.length := by
      simp only [List.length_cons] at hlen
      omega
    have hdrop : tds.drop i = tds.get ⟨i, hi⟩ :: tds.drop (i + 1) := by
      have := List.drop_eq_getElem_cons hi
      simpa [List.get_eq_getElem] using this
    rw [totalForJs, jsDelta_of_nonzero tds i hi hnz,
      ih tds (i + 1) hnz (by simp only [List.length_cons] at hlen; omega), hdrop,
      matchingDeltaSum_cons]

/-- C7: with every time delta non-zero and at least as many deltas as samples,
each (sample, delta) pair adds the delta to the referenced node's self and
total time: every node's flame-graph value (its total time) and its aggregated
self time equal the sum of the deltas at the indices whose sample references
that node. -/
theorem flame_graph_totals (nodes : List ProfileNode) (samples : List Nat)
    (tds : List Int) (hids : (nodes.map ProfileNode.id).Nodup)
    (hlen : samples.length ≤ tds.length) (hnz : ∀ d ∈ tds, d ≠ 0) :
    (processProfileNodes nodes samples tds).map FlameNode.value =
      nodes.map (fun n => matchingDeltaSum n.id samples tds) ∧
    (applyTimings tds (buildNodeMap nodes) samples 0).map (fun e => e.2.selfTime) =
      nodes.map (fun n => matchingDeltaSum n.id samples tds) := by
  have hpoint : ∀ n : ProfileNode, totalForJs n.id tds samples 0 =
      matchingDeltaSum n.id samples tds := by
    intro n
    have := totalForJs_eq_matchingDeltaSum n.id samples tds 0 hnz (by omega)
    simpa using this
  constructor
  · rw [processProfileNodes_values nodes samples tds hids]
    apply List.map_congr_left
    intro n _
    exact hpoint n
  · rw [applyTimings_selfTimes nodes samples tds hids]
    apply List.map_congr_left
    intro n _
    exact hpoint n

/-- Witness for `flame_graph_totals`: two nodes, samples alternating between
them, deltas [10, 20, 30, 40]; node 1 totals 40, node 2 totals 60. -/
theorem flame_graph_totals_witness :
    (processProfileNodes
        [⟨1, ⟨"A", "a.js", 0, 0⟩⟩, ⟨2, ⟨"B", "a.js", 1, 0⟩⟩]
        [1, 2, 1, 2] [10, 20, 30, 40]).map FlameNode.value = [40, 60] := by
  rw [(flame_graph_totals
    [⟨1, ⟨"A", "a.js", 0, 0⟩⟩, ⟨2, ⟨"B", "a.js", 1, 0⟩⟩]
    [1, 2, 1, 2] [10, 20, 30, 40] (by decide) (by decide) (by decide)).1]
  decide

theorem totalForJs_all_defaulted (id : Nat) :
    ∀ (samples : List Nat) (tds : List Int) (i : Nat),
    (∀ j, j < samples.length → (tds.get? (i + j) = some 0 ∨ tds.length ≤ i + j)) →
    totalForJs id tds samples i = ((samples.filter (fun s => s = id)).length : Int) := by
  intro samples
  induction samples with
  | nil =>
    intro tds i _
    simp [totalForJs]
  | cons s rest ih =>
    intro tds i h
    have h0 : jsDelta tds i = 1 := by
      unfold jsDelta
      rcases h 0 (by simp) with h' | h'
      · rw [Nat.add_zero] at h'
        rw [h']
        simp
      · rw [Nat.add_zero] at h'
        rw [List.get?_eq_none.mpr h']
    have hrest : ∀ j, j < rest.length → (tds.get? (i + 1 + j) = some 0 ∨
        tds.length ≤ i + 1 + j) := by
      intro j hj
      have := h (j + 1) (by simp; omega)
      rwa [show i + (j + 1) = i + 1 + j from by omega] at this
    rw [totalForJs, h0, ih tds (i + 1) hrest]
    by_cases hs : s = id
    · rw [if_pos hs]
      simp [hs]
      ring
    · rw [if_neg hs]
      simp [hs]

/-- C10: a zero or absent time delta contributes `1` (not `0`): the code's
`timeDeltas[index] || 1` default makes `jsDelta` equal `1` there, and when
every sample's delta is zero or absent each node's flame-graph value and
aggregated self time equal the number of samples referencing it. -/
theorem zero_delta_contributes_one :
    (∀ (tds : List Int) (i : Nat), tds.get? i = some 0 ∨ tds.length ≤ i →
      jsDelta tds i = 1) ∧
    (∀ (nodes : List ProfileNode) (samples : List Nat) (tds : List Int),
      (nodes.map ProfileNode.id).Nodup →
      (∀ i, i < samples.length → (tds.get? i = some 0 ∨ tds.length ≤ i)) →
      (processProfileNodes nodes samples tds).map FlameNode.value =
        nodes.map (fun n => ((samples.filter (fun s => s = n.id)).length : Int)) ∧
      (applyTimings tds (buildNodeMap nodes) samples 0).map (fun e => e.2.selfTime) =
        nodes.map (fun n => ((samples.filter (fun s => s = n.id)).length : Int))) := by
  constructor
  · intro tds i h
    unfold jsDelta
    rcases h with h' | h'
    · rw [h']
      simp
    · rw [List.get?_eq_none.mpr h']
  · intro nodes samples tds hids h
    constructor
    · rw [processProfileNodes_values nodes samples tds hids]
      apply List.map_congr_left
      intro n _
      exact totalForJs_all_defaulted n.id samples tds 0 (by simpa using h)
    · rw [applyTimings_selfTimes nodes samples tds hids]
      apply List.map_congr_left
      intro n _
      exact totalForJs_all_defaulted n.id samples tds 0 (by simpa using h)

/-- Witness for `zero_delta_contributes_one`: index 0 has delta 0 and index 1
is out of range, yet the single node referenced by both samples gets value 2. -/
theorem zero_delta_contributes_one_witness :
    jsDelta [0] 0 = 1 ∧
    (processProfileNodes [⟨5, ⟨"f", "u.js", 0, 0⟩⟩] [5, 5] [0]).map FlameNode.value
      = [2] := by
  constructor
  · exact zero_delta_contributes_one.1 [0] 0 (Or.inl rfl)
  · rw [(zero_delta_contributes_one.2 [⟨5, ⟨"f", "u.js", 0, 0⟩⟩] [5, 5] [0]
      (by decide) (by decide)).1]
    decide

/-! `stop`, metric collection, capture methods, cleanup. -/

/-- C9: `stop` leaves every metric buffer and the stored-profile mapping
unchanged; it is a no-op when the session is inactive, and otherwise only
clears the running flag, drops the instrumentation connection, and emits
`stopped`. -/
theorem stop_preserves_buffers (st : ProfilerState) :
    (stop st).metrics = st.metrics ∧ (stop st).profiles = st.profiles ∧
    (st.isRunning = false → stop st = st) ∧
    (st.isRunning = true →
      (stop st).isRunning = false ∧ (stop st).session = none ∧
      (stop st).events = st.events ++ ["stopped"] ∧
      (stop st).outputDir = st.outputDir) := by
  cases hr : st.isRunning <;> simp [stop, hr]

/-- Witness for `stop_preserves_buffers`: an inactive state is unchanged and
an active one is deactivated. -/
theorem stop_preserves_buffers_witness :
    stop ⟨false, none, ⟨[], [], [], []⟩, [], [], "profiles"⟩ =
      ⟨false, none, ⟨[], [], [], []⟩, [], [], "profiles"⟩ ∧
    (stop ⟨true, some (), ⟨[], [], [], []⟩, [], [], "profiles"⟩).isRunning = false :=
  ⟨(stop_preserves_buffers _).2.2.1 rfl, ((stop_preserves_buffers _).2.2.2 rfl).1⟩

/-- C8: immediately after an append, the GC, memory, and CPU buffers hold only
records newer than the one-hour retention window. -/
theorem buffer_eviction_after_append (now : Int) (gcFrequency : Nat)
    (memoryUsageThreshold : Int) (d : Rat) (kind : String) (flags : Int)
    (memUsage : MemUsage) (cpuUsage : CpuUsage) (metrics : Metrics) :
    (∀ g ∈ (handleGCEntry now gcFrequency d kind flags metrics).1.gc,
      g.timestamp > now - 3600000) ∧
    (∀ m ∈ (collectSystemMetrics now memoryUsageThreshold memUsage cpuUsage
        metrics).1.memory, m.timestamp > now - 3600000) ∧
    (∀ c ∈ (collectSystemMetrics now memoryUsageThreshold memUsage cpuUsage
        metrics).1.cpu, c.timestamp > now - 3600000) := by
  refine ⟨?_, ?_, ?_⟩ <;> intro x hx <;>
    simp only [handleGCEntry, collectSystemMetrics] at hx <;>
    rw [List.mem_filter] at hx <;>
    simpa using hx.2

/-- Witness for `buffer_eviction_after_append`: the freshly appended GC event
satisfies the window bound. -/
theorem buffer_eviction_after_append_witness :
    ((handleGCEntry 0 10 1 "minor" 0 ⟨[], [], [], []⟩).1.gc.headD default).timestamp
      > (0 : Int) - 3600000 := by
  apply (buffer_eviction_after_append 0 10 0 1 "minor" 0 ⟨0, 0, 0, 0⟩ ⟨0, 0⟩
    ⟨[], [], [], []⟩).1
  decide

/-- The loop count has the closed form `max (sampleCount + 1) ⌈duration/100⌉`. -/
theorem memSampleLoop_closed : ∀ (duration sampleCount : Nat),
    memSampleLoop duration sampleCount =
      max (sampleCount + 1) ((duration + 99) / 100) := by
  intro duration
  suffices h : ∀ (fuel sampleCount : Nat), duration - sampleCount ≤ fuel →
      memSampleLoop duration sampleCount =
        max (sampleCount + 1) ((duration + 99) / 100) by
    intro n
    exact h duration n (by omega)
  intro fuel
  induction fuel with
  | zero =>
    intro n hn
    rw [memSampleLoop, if_pos (by omega)]
    omega
  | succ k ih =>
    intro n hn
    rw [memSampleLoop]
    by_cases hc : duration ≤ 100 * (n + 1)
    · rw [if_pos hc]
      omega
    · rw [if_neg hc, ih (n + 1) (by omega)]
      omega

/-- Counterexample to C2 as stated: with no session connected, `profileMemory`
does not fail — it takes its samples and registers a profile. -/
theorem profileMemory_inactive_counterexample :
    (⟨false, none, ⟨[], [], [], []⟩, [], [], "profiles"⟩ : ProfilerState).session
      = none ∧
    (profileMemory ⟨false, none, ⟨[], [], [], []⟩, [], [], "profiles"⟩ 0 300
      (fun _ => ⟨0, 0, 0, 0, 0⟩)).2.samples.length = 3 ∧
    (profileMemory ⟨false, none, ⟨[], [], [], []⟩, [], [], "profiles"⟩ 0 300
      (fun _ => ⟨0, 0, 0, 0, 0⟩)).1.profiles.length = 1 := by
  have h300 : memSampleLoop 300 0 = 3 := by
    rw [memSampleLoop_closed]
    omega
  refine ⟨rfl, ?_, ?_⟩
  · simp [profileMemory, h300]
  · simp [profileMemory]

/-- C2 (amended): `profileCPU` and `takeHeapSnapshot` fail with the
session-not-active error when no session is connected, but `profileMemory`
performs its capture regardless of the session. -/
theorem capture_session_guards (st : ProfilerState) (now : Int) (dur : Nat)
    (profileSize : Int) (chunkSizes : List Int) (sampler : Nat → MemorySample)
    (h : st.session = none) :
    profileCPU st now dur profileSize = .error "Profiler session not active" ∧
    takeHeapSnapshot st now chunkSizes = .error "Profiler session not active" ∧
    (profileMemory st now dur sampler).2.samples.length = memSampleLoop dur 0 := by
  refine ⟨?_, ?_, ?_⟩
  · unfold profileCPU
    rw [h]
  · unfold takeHeapSnapshot
    rw [h]
  · simp [profileMemory]

/-- Witness for `capture_session_guards` at a concrete inactive state. -/
theorem capture_session_guards_witness :
    profileCPU ⟨false, none, ⟨[], [], [], []⟩, [], [], "profiles"⟩ 0 5 0 =
      .error "Profiler session not active" ∧
    takeHeapSnapshot ⟨false, none, ⟨[], [], [], []⟩, [], [], "profiles"⟩ 0 [] =
      .error "Profiler session not active" := by
  have h := capture_session_guards
    ⟨false, none, ⟨[], [], [], []⟩, [], [], "profiles"⟩ 0 5 0 []
    (fun _ => ⟨0, 0, 0, 0, 0⟩) rfl
  exact ⟨h.1, h.2.1⟩

/-- Counterexample to C3 as stated: for a 250 ms duration the code takes 3
samples, not `floor(250/100) = 2`. -/
theorem profileMemory_floor_counterexample :
    (profileMemory ⟨false, none, ⟨[], [], [], []⟩, [], [], "profiles"⟩ 0 250
      (fun _ => ⟨0, 0, 0, 0, 0⟩)).2.samples.length ≠ 250 / 100 := by
  have h250 : memSampleLoop 250 0 = 3 := by
    rw [memSampleLoop_closed]
    omega
  simp [profileMemory, h250]

/-- C3 (amended): `profileMemory` records `max 1 ⌈duration/100⌉` samples (the
loop stops once `sampleCount ≥ duration/100` under real division, so the count
rounds up, with a minimum of one sample), then writes them together with the
`_analyzeMemoryProfile` summary. -/
theorem profileMemory_sample_count (st : ProfilerState) (now : Int) (d : Nat)
    (sampler : Nat → MemorySample) :
    (profileMemory st now d sampler).2.samples.length = max 1 ((d + 99) / 100) ∧
    (profileMemory st now d sampler).2.summary =
      analyzeMemoryProfile ((profileMemory st now d sampler).2.samples) ∧
    (profileMemory st now d sampler).2.duration = d := by
  refine ⟨?_, rfl, rfl⟩
  simp [profileMemory, memSampleLoop_closed]

theorem cleanupStep_snd_mono (cutoff : Int) (u : String → Bool)
    (acc : List String × List String) (e : String × CapturedProfile)
    {x : String} (hx : x ∈ acc.2) : x ∈ (cleanupStep cutoff u acc e).2 := by
  unfold cleanupStep
  split
  · split
    · exact hx
    · exact List.mem_append_left _ hx
  · exact hx

theorem cleanupFold_snd_mono (cutoff : Int) (u : String → Bool) :
    ∀ (l : List (String × CapturedProfile)) (acc : List String × List String)
    (x : String), x ∈ acc.2 →
    x ∈ (l.foldl (cleanupStep cutoff u) acc).2 := by
  intro l
  induction l with
  | nil => intro acc x hx; exact hx
  | cons e rest ih =>
    intro acc x hx
    rw [List.foldl_cons]
    exact ih _ x (cleanupStep_snd_mono cutoff u acc e hx)

theorem cleanupFold_fst (cutoff : Int) (u : String → Bool) :
    ∀ (l : List (String × CapturedProfile)) (acc : List String × List String),
    (l.foldl (cleanupStep cutoff u) acc).1 =
      acc.1 ++ (l.filter (fun e => e.2.timestamp < cutoff)).map Prod.fst := by
  intro l
  induction l with
  | nil => intro acc; simp
  | cons e rest ih =>
    intro acc
    rw [List.foldl_cons, ih]
    unfold cleanupStep
    by_cases he : e.2.timestamp < cutoff
    · rw [if_pos he]
      simp [List.filter_cons, he]
    · rw [if_neg he]
      simp [List.filter_cons, he]

theorem cleanupFold_snd_mem (cutoff : Int) (u : String → Bool) :
    ∀ (l : List (String × CapturedProfile)) (acc : List String × List String)
    (e : String × CapturedProfile), e ∈ l → e.2.timestamp < cutoff →
    u e.2.filepath = false →
    e.2.filename ∈ (l.foldl (cleanupStep cutoff u) acc).2 := by
  intro l
  induction l with
  | nil => intro acc e he; simp at he
  | cons e0 rest ih =>
    intro acc e he ht hu
    rw [List.foldl_cons]
    rcases List.mem_cons.mp he with heq | hmem
    · subst heq
      apply cleanupFold_snd_mono cutoff u rest
      unfold cleanupStep
      rw [if_pos ht, if_neg (by rw [hu]; exact Bool.false_ne_true)]
      exact List.mem_append_right _ (List.mem_singleton_self _)
    · exact ih _ e hmem ht hu

/-- C1 (amended): `cleanupProfiles` removes every expired entry from the
mapping whether or not the artifact deletion succeeded — the id is queued for
removal before the deletion is attempted — and a failed deletion is logged. -/
theorem cleanupProfiles_spec (now maxAge : Int) (unlinkOk : String → Bool)
    (profiles : List (String × CapturedProfile))
    (hids : (profiles.map Prod.fst).Nodup) :
    (cleanupProfiles now maxAge unlinkOk profiles).1 =
      profiles.filter (fun e => ¬ e.2.timestamp < now - maxAge) ∧
    (∀ e ∈ profiles, e.2.timestamp < now - maxAge →
      unlinkOk e.2.filepath = false →
      e.2.filename ∈ (cleanupProfiles now maxAge unlinkOk profiles).2) := by
  constructor
  · show profiles.filter _ = profiles.filter _
    apply List.filter_congr
    intro e he
    rw [cleanupFold_fst (now - maxAge) unlinkOk profiles ([], []), List.nil_append,
      decide_eq_decide]
    have hiff : e.1 ∈ (profiles.filter
        (fun e' => e'.2.timestamp < now - maxAge)).map Prod.fst ↔
        e.2.timestamp < now - maxAge := by
      constructor
      · intro hmem
        rw [List.mem_map] at hmem
        obtain ⟨e', he', heq⟩ := hmem
        rw [List.mem_filter] at he'
        have heq' : e' = e := List.inj_on_of_nodup_map hids he'.1 he heq
        have := he'.2
        rw [heq'] at this
        simpa using this
      · intro hold
        exact List.mem_map_of_mem Prod.fst
          (List.mem_filter.mpr ⟨he, by simpa using hold⟩)
    have hcontains : ((profiles.filter
        (fun e' => e'.2.timestamp < now - maxAge)).map Prod.fst).contains e.1
          = true ↔
        e.1 ∈ (profiles.filter
          (fun e' => e'.2.timestamp < now - maxAge)).map Prod.fst := by
      simp
    exact not_congr (hcontains.trans hiff)
  · intro e he ht hu
    exact cleanupFold_snd_mem (now - maxAge) unlinkOk profiles ([], []) e he ht hu

/-- Counterexample to C1 as stated: a failed deletion is logged but the entry
is removed from the mapping anyway. -/
theorem cleanupProfiles_failed_delete_counterexample :
    (cleanupProfiles 100000000 1000 (fun _ => false)
      [("p1", ⟨"cpu", "p1.cpuprofile", "profiles/p1.cpuprofile", 0,
        some 5, some 10, none⟩)]).1 = [] ∧
    (cleanupProfiles 100000000 1000 (fun _ => false)
      [("p1", ⟨"cpu", "p1.cpuprofile", "profiles/p1.cpuprofile", 0,
        some 5, some 10, none⟩)]).2 = ["p1.cpuprofile"] := by
  constructor
  · rfl
  · rfl

/-- Witness for `cleanupProfiles_spec`: the expired entry with a failing
deletion disappears from the mapping while the fresh one stays, and the
failure is logged. -/
theorem cleanupProfiles_spec_witness :
    (cleanupProfiles 100000000 1000 (fun _ => false)
      [("old1", ⟨"cpu", "old1.cpuprofile", "profiles/old1.cpuprofile", 0,
        some 5, some 10, none⟩),
       ("new1", ⟨"heap", "new1.heapsnapshot", "profiles/new1.heapsnapshot",
        99999999, none, some 7, none⟩)]).1 =
      [("new1", ⟨"heap", "new1.heapsnapshot", "profiles/new1.heapsnapshot",
        99999999, none, some 7, none⟩)] ∧
    "old1.cpuprofile" ∈ (cleanupProfiles 100000000 1000 (fun _ => false)
      [("old1", ⟨"cpu", "old1.cpuprofile", "profiles/old1.cpuprofile", 0,
        some 5, some 10, none⟩),
       ("new1", ⟨"heap", "new1.heapsnapshot", "profiles/new1.heapsnapshot",
        99999999, none, some 7, none⟩)]).2 := by
  have h := cleanupProfiles_spec 100000000 1000 (fun _ => false)
    [("old1", ⟨"cpu", "old1.cpuprofile", "profiles/old1.cpuprofile", 0,
      some 5, some 10, none⟩),
     ("new1", ⟨"heap", "new1.heapsnapshot", "profiles/new1.heapsnapshot",
      99999999, none, some 7, none⟩)] (by decide)
  constructor
  · rw [h.1]
    decide
  · exact h.2 ("old1", ⟨"cpu", "old1.cpuprofile", "profiles/old1.cpuprofile", 0,
      some 5, some 10, none⟩) (by decide) (by decide) rfl

end Profiler
